import Mathlib

set_option autoImplicit false

namespace MicrostructureGen

/-! Shallow embedding of the microstructure_gen class
(src/microstructure_gen.py).

Modelling conventions.  Python numeric values in this program are decimal
literals (from Python source or from CSV text), so a Python float is
modelled as an exact decimal number num / 10 ^ exp.  Python dicts are
insertion ordered and are modelled as association lists.  A Python
exception propagating out of a method is modelled as Option.none. -/

/-- A decimal number: the value num / 10 ^ exp.  Stands in for a Python
float.  All floats this program handles are decimal literals, and the
claims only involve values inside the plain positional-notation range of
the Python float repr, so the exact-decimal model is adequate. -/
structure Dec where
  num : Int
  exp : Nat
  deriving DecidableEq

/-- Strip trailing decimal zeros from num / 10 ^ exp (fuel is the
exponent).  This is the canonical form of a decimal, mirroring the
canonical (shortest round-trip) repr of a Python float. -/
def Dec.normAux : Int → Nat → Dec
  | n, 0 => ⟨n, 0⟩
  | n, e + 1 => if n % 10 = 0 then Dec.normAux (n / 10) e else ⟨n, e + 1⟩

/-- Canonical form of a decimal. -/
def Dec.norm (d : Dec) : Dec := Dec.normAux d.num d.exp

/-- Python int() applied to the value: truncation toward zero. -/
def Dec.trunc (d : Dec) : Int := d.num.tdiv ((10 : Int) ^ d.exp)

/-- Value comparison of two decimals (cross-multiplied). -/
def Dec.lt (a b : Dec) : Bool :=
  decide (a.num * (10 : Int) ^ b.exp < b.num * (10 : Int) ^ a.exp)

/-- Positional decimal notation for a nonnegative normalized mantissa and
exponent: integer part, point, zero-padded fractional part; a trailing .0
when the exponent is zero (as Python prints a whole float). -/
def Dec.reprPos (n : Nat) (e : Nat) : String :=
  if e = 0 then toString n ++ ".0"
  else
    let ip := n / 10 ^ e
    let fp := n % 10 ^ e
    let fs := toString fp
    toString ip ++ "." ++ (List.replicate (e - fs.length) '0').asString ++ fs

/-- The Python repr of a float, over the exact-decimal model: sign, then
canonical positional decimal. -/
def Dec.repr (d : Dec) : String :=
  let m := Dec.norm d
  if m.num < 0 then "-" ++ Dec.reprPos m.num.natAbs m.exp
  else Dec.reprPos m.num.natAbs m.exp

/-- Consume leading decimal digits of a character list, returning their
values and the rest. -/
def takeDigits : List Char → List Nat × List Char
  | [] => ([], [])
  | c :: cs =>
    if c.isDigit then
      let p := takeDigits cs
      ((c.toNat - 48) :: p.1, p.2)
    else ([], c :: cs)

/-- Value of a big-endian digit list. -/
def natOfDigits (ds : List Nat) : Nat := ds.foldl (fun a d => a * 10 + d) 0

/-- Parse an unsigned decimal literal: digits, optionally a point and more
digits; at least one digit overall and no trailing junk.  This is the
Python float constructor on plain unsigned decimal strings. -/
def parseUDec (l : List Char) : Option Dec :=
  let p := takeDigits l
  match p.2 with
  | [] => if p.1 = [] then none else some ⟨natOfDigits p.1, 0⟩
  | '.' :: r2 =>
    let q := takeDigits r2
    if q.2 = [] ∧ (p.1 ≠ [] ∨ q.1 ≠ []) then
      some ⟨natOfDigits (p.1 ++ q.1), q.1.length⟩
    else none
  | _ => none

/-- The Python float constructor applied to a string: optional sign, then
an unsigned decimal.  (Whitespace, exponents, inf and nan lie outside the
modelled subset; this program feeds plain decimals.) -/
def parseDec (s : String) : Option Dec :=
  match s.data with
  | '+' :: r => parseUDec r
  | '-' :: r => (parseUDec r).map (fun d => ⟨-d.num, d.exp⟩)
  | l => parseUDec l

/-- A Python scalar value as this program passes them around: ints,
floats (exact-decimal model), strings (e.g. CSV cells), and lists of
floats (the VfAfl enrichment value). -/
inductive PyVal where
  | int (n : Int)
  | float (d : Dec)
  | str (s : String)
  | floatList (ds : List Dec)
  deriving DecidableEq

/-- Python float(v): identity on numbers, decimal parse on strings,
TypeError (none) on a list. -/
def pyFloat : PyVal → Option Dec
  | .int n => some ⟨n, 0⟩
  | .float d => some d
  | .str s => parseDec s
  | .floatList _ => none

/-- Python str(v), as used when the .m script interpolates values. -/
def pyStr : PyVal → String
  | .int n => toString n
  | .float d => Dec.repr d
  | .str s => s
  | .floatList ds => "[" ++ String.intercalate ", " (ds.map Dec.repr) ++ "]"

/-- A Python dict with string keys, modelled as an insertion-ordered
association list (Python dicts preserve insertion order). -/
abbrev PyDict (α : Type) := List (String × α)

/-- A parameter mapping (candidate or admitted ParameterSet). -/
abbrev ParamSet := PyDict PyVal

/-- Python dict read d[k] (none models KeyError). -/
def dlookup {α : Type} : PyDict α → String → Option α
  | [], _ => none
  | e :: r, k => if e.1 == k then some e.2 else dlookup r k

/-- Python dict assignment d[k] = v: overwrite in place when the key is
present, otherwise append at the end. -/
def dinsert {α : Type} (l : PyDict α) (k : String) (v : α) : PyDict α :=
  if l.any (fun e => e.1 == k) then
    l.map (fun e => if e.1 == k then (k, v) else e)
  else l ++ [(k, v)]

/-- Thread Option through a list map, failing when any element fails;
models a Python loop whose body may raise. -/
def omap {α β : Type} (f : α → Option β) : List α → Option (List β)
  | [] => some []
  | a :: l =>
    match f a, omap f l with
    | some b, some bs => some (b :: bs)
    | _, _ => none

/-- self.params, the required field set, in the order of the set literal
in the source (Python set iteration order is unspecified; the claims do
not depend on it, and this fixed order stands in for it). -/
def required_params : List String :=
  ["ParRu", "ParRv", "pix", "NumAgl", "VfAglm", "VfFree", "scale", "seed"]

/-- int(float(params[k])): the integer-truncated encoding of a field. -/
def encInt (ps : ParamSet) (k : String) : Option Int :=
  ((dlookup ps k).bind pyFloat).map Dec.trunc

/-- float(params[k]): the float encoding of a field. -/
def encFloat (ps : ParamSet) (k : String) : Option Dec :=
  (dlookup ps k).bind pyFloat

/-- generate_mat_name: six fields integer truncated, VfAglm and VfFree
kept as floats, joined with underscores, with the .mat extension.  A
failed lookup or coercion (Python KeyError / ValueError) gives none. -/
def generate_mat_name (ps : ParamSet) : Option String :=
  match encInt ps "ParRu", encInt ps "ParRv", encInt ps "pix",
        encInt ps "NumAgl", encFloat ps "VfAglm", encFloat ps "VfFree",
        encInt ps "scale", encInt ps "seed" with
  | some ru, some rv, some px, some na, some vm, some vf, some sc, some sd =>
    some (toString ru ++ "_" ++ toString rv ++ "_" ++ toString px ++ "_" ++
          toString na ++ "_" ++ Dec.repr vm ++ "_" ++ Dec.repr vf ++ "_" ++
          toString sc ++ "_" ++ toString sd ++ ".mat")
  | _, _, _, _, _, _, _, _ => none

/-- A JSON document, as the json module loads and stores them (numbers
split into int and float as Python json does).  The ledger file content
is modelled at this structured level; the concrete text syntax belongs to
the json library, which is external to this program. -/
inductive Json where
  | jint (n : Int)
  | jfloat (d : Dec)
  | jstr (s : String)
  | jarr (xs : List Json)
  | jobj (xs : List (String × Json))

/-- json.dump of one parameter value. -/
def encodePyVal : PyVal → Json
  | .int n => .jint n
  | .float d => .jfloat d
  | .str s => .jstr s
  | .floatList ds => .jarr (ds.map Json.jfloat)

/-- Read back one float of an enrichment array. -/
def decodeFloat : Json → Option Dec
  | .jfloat d => some d
  | _ => none

/-- json.load of one parameter value, typed by the data model (a scalar
or the VfAfl float array). -/
def decodePyVal : Json → Option PyVal
  | .jint n => some (.int n)
  | .jfloat d => some (.float d)
  | .jstr s => some (.str s)
  | .jarr xs => (omap decodeFloat xs).map PyVal.floatList
  | .jobj _ => none

/-- The params-filename map: filename to the ParameterSet that produced
it. -/
abbrev Ledger := PyDict ParamSet

/-- json.dump of one ParameterSet. -/
def encodeParamSet (ps : ParamSet) : Json :=
  .jobj (ps.map (fun e => (e.1, encodePyVal e.2)))

/-- json.load of one ParameterSet. -/
def decodeParamSet : Json → Option ParamSet
  | .jobj xs => omap (fun e => (decodePyVal e.2).map (fun v => (e.1, v))) xs
  | _ => none

/-- json.dump of the whole params-filename map, as update_params_filename
writes it. -/
def encodeLedger (l : Ledger) : Json :=
  .jobj (l.map (fun e => (e.1, encodeParamSet e.2)))

/-- json.load of the whole params-filename map, as the constructor reads
it back, typed by the data model. -/
def decodeLedger : Json → Option Ledger
  | .jobj xs => omap (fun e => (decodeParamSet e.2).map (fun v => (e.1, v))) xs
  | _ => none

/-- The in-memory and on-disk state of one microstructure_gen object:
the job list, the params-filename map, the content of the file at
json_file (none when the file does not exist), and data_dir. -/
structure MSGen where
  jobs : List ParamSet
  params_filename : Ledger
  json_store : Option Json
  data_dir : String

/-- The constructor load of the params-filename map: an absent json file
initializes the map empty, an existing one is json.load-ed (typed by the
data model). -/
def init_ledger (file : Option Json) : Option Ledger :=
  match file with
  | none => some []
  | some j => decodeLedger j

/-- The validation loop at the top of add_job: the first required field
absent from the candidate mapping, if any. -/
def first_missing (ps : ParamSet) : Option String :=
  required_params.find? (fun p => (dlookup ps p).isNone)

/-- The message printed when validation fails, naming the field. -/
def specify_msg (par : String) : String :=
  "Please specify " ++ par ++ " in params. Abort."

/-- update_params_filename: record filename to params in the map and
rewrite the whole map to the json file. -/
def update_params_filename (st : MSGen) (ps : ParamSet) (fn : String) : MSGen :=
  let led := dinsert st.params_filename fn ps
  { st with params_filename := led, json_store := some (encodeLedger led) }

/-- add_job: validate (report and return unchanged on a missing field),
derive the filename, record it in the ledger (persisting the whole map),
and append the job (a copy of params plus its filename) to the job list.
The String list carries the printed messages; none models a raised
coercion error inside generate_mat_name. -/
def add_job (st : MSGen) (ps : ParamSet) : Option (MSGen × List String) :=
  match first_missing ps with
  | some par => some (st, [specify_msg par])
  | none =>
    match generate_mat_name ps with
    | none => none
    | some fn =>
      let st1 := update_params_filename st ps fn
      some ({ st1 with jobs := st1.jobs ++ [dinsert ps "filename" (PyVal.str fn)] },
            [])

/-- The apostrophe character, as written into the .m script. -/
def aq : String := String.singleton (Char.ofNat 39)

/-- The double quote character, as written into the .m script. -/
def dq : String := String.singleton (Char.ofNat 34)

/-- The first seed-initialization statement written before the loop. -/
def rng_default_line : String := "rng(" ++ aq ++ "default" ++ aq ++ ");"

/-- The second seed-initialization statement written before the loop. -/
def rng_seed_line : String := "rng(seed(1));"

/-- The fixed loop block of the generated .m script, one string per
line. -/
def loop_lines : List String :=
  ["for i = 1:batch",
   "    if NumAgl(i) > 1",
   "        intervals = sort(rand(1,NumAgl(i)-1));",
   "        VfAfl = VfAglm(i)*([intervals,1] - [0,intervals]);",
   "    else",
   "        VfAfl = [VfAglm(i)];",
   "    end",
   "    save(strcat(data_dir," ++ aq ++ "VfAfl_" ++ aq ++ ",filename(i)), "
     ++ aq ++ "VfAfl" ++ aq ++ ");",
   "    MS = CreateAglom2DPBC(ParRu(i),ParRv(i),VfAfl,pix(i),NumAgl(i),VfAglm(i),VfFree(i),scale(i),seed(i));",
   "    save(strcat(data_dir,filename(i)), " ++ aq ++ "MS" ++ aq ++ ");",
   "end",
   "exit;"]

/-- One parameter array line of the .m script: the field values of every
job, space separated, bracketed (none models a KeyError on a job). -/
def param_line (st : MSGen) (par : String) : Option String :=
  (omap (fun j => (dlookup j par).map pyStr) st.jobs).map
    (fun vs => par ++ " = [" ++ String.intercalate " " vs ++ "];")

/-- The filename of a job as the .m script string array needs it (a
non-string or absent value models a TypeError / KeyError). -/
def job_filename (j : ParamSet) : Option String :=
  match dlookup j "filename" with
  | some (PyVal.str s) => some s
  | _ => none

/-- write_m_file, modelled as the list of lines of the generated script
(trailing newlines dropped).  An empty job list writes no file (none);
a raise while collecting values is also none (Python would abandon a
partial file, which no claim touches). -/
def write_m_file (st : MSGen) : Option (List String) :=
  if st.jobs.isEmpty then none
  else
    (omap job_filename st.jobs).bind (fun fns =>
      (omap (param_line st) required_params).map (fun plines =>
        ["batch = " ++ toString st.jobs.length ++ ";",
         "data_dir = " ++ dq ++ st.data_dir ++ "/" ++ dq ++ ";",
         "filename = [" ++ dq ++ String.intercalate (dq ++ " " ++ dq) fns
           ++ dq ++ "];"]
        ++ plines ++ [rng_default_line, rng_seed_line] ++ loop_lines))

/-- A CSV descriptor file: the header row, and the data rows. -/
structure Csv where
  header : List String
  rows : List (List String)

/-- Equality of the header and the required fields as unordered sets
(set(reader.fieldnames) compared with self.params). -/
def setEqB (a b : List String) : Bool :=
  a.all (fun x => b.contains x) && b.all (fun x => a.contains x)

/-- A DictReader row: header names zipped with the row cells, every cell
a string. -/
def row_to_params (header : List String) (row : List String) : ParamSet :=
  (header.zip row).map (fun p => (p.1, PyVal.str p.2))

/-- The diagnostic printed on a header-set mismatch. -/
def header_msg : String :=
  "Please check the header row, it must include all elements of the required params."

/-- The diagnostic printed when the import file does not exist. -/
def not_found_msg : String := "import file not found."

/-- The message printed after a successful load. -/
def loaded_msg : String := "loaded to the job list."

/-- The row loop of load_job_params: admit each row through add_job in
order, accumulating printed messages. -/
def fold_add_jobs (header : List String) :
    MSGen → List (List String) → Option (MSGen × List String)
  | st, [] => some (st, [])
  | st, r :: rs =>
    match add_job st (row_to_params header r) with
    | some p => (fold_add_jobs header p.1 rs).map (fun q => (q.1, p.2 ++ q.2))
    | none => none

/-- load_job_params: report an absent file; on a header-set mismatch
report and abort without admitting any row; otherwise admit every row in
order. -/
def load_job_params (st : MSGen) (file : Option Csv) : Option (MSGen × List String) :=
  match file with
  | none => some (st, [not_found_msg])
  | some c =>
    if setEqB c.header required_params then
      match fold_add_jobs c.header st c.rows with
      | some p => some (p.1, p.2 ++ [loaded_msg])
      | none => none
    else some (st, [header_msg])

/-- update_VfAfl: for each ledger entry in order, load the companion
artifact (loadOf models scipy loadmat on the file at
data_dir/VfAfl_filename; none models the FileNotFoundError a missing
file raises) and attach its float array under the VfAfl key; finally
rewrite the json store.  A raise aborts the pass as none (nothing is
persisted). -/
def update_VfAfl (loadOf : String → Option (List Dec)) (st : MSGen) : Option MSGen :=
  match omap (fun e =>
      (loadOf (st.data_dir ++ "/VfAfl_" ++ e.1)).map
        (fun v => (e.1, dinsert e.2 "VfAfl" (PyVal.floatList v)))) st.params_filename with
  | some led => some { st with params_filename := led,
                               json_store := some (encodeLedger led) }
  | none => none

/-- float(params_filename[x][VfFree]), the duplicate tie-break key. -/
def vfFreeOf (ps : ParamSet) : Option Dec := (dlookup ps "VfFree").bind pyFloat

/-- One step of the all_ms grouping loop of remove_duplicates: append a
filename to the group of its artifact content (contents are the dict
keys). -/
def add_to_groups (gs : PyDict (List String)) (c : String) (fn : String) :
    PyDict (List String) :=
  if gs.any (fun g => g.1 == c) then
    gs.map (fun g => if g.1 == c then (g.1, g.2 ++ [fn]) else g)
  else gs ++ [(c, [fn])]

/-- Stable insertion by VfFree key: the new element goes after strictly
smaller keys and before equal or larger ones. -/
def vf_insert (x : String × Dec) : List (String × Dec) → List (String × Dec)
  | [] => [x]
  | y :: ys => if Dec.lt y.2 x.2 then y :: vf_insert x ys else x :: y :: ys

/-- Stable ascending sort by VfFree key (Python list.sort is stable). -/
def sort_by_vf : List (String × Dec) → List (String × Dec)
  | [] => []
  | x :: xs => vf_insert x (sort_by_vf xs)

/-- The sort key of one mat filename of a duplicate group, with the
filename it belongs to. -/
def key_of (led : Ledger) (fn : String) : Option (String × Dec) :=
  match dlookup led fn with
  | some ps => (vfFreeOf ps).map (fun d => (fn, d))
  | none => none

/-- The all_ms grouping of remove_duplicates followed by the has_dup
restriction: group the (filename, content) observations by content in
ledger order and keep the groups with more than one member. -/
def dup_groups (pairs : List (String × String)) : PyDict (List String) :=
  (pairs.foldl (fun gs p => add_to_groups gs p.2 p.1) []).filter
    (fun g => 1 < g.2.length)

/-- The to_remove loop over the duplicate groups: all but the
smallest-VfFree filename of each group, concatenated. -/
def removed_files (led : Ledger) (dups : PyDict (List String)) :
    Option (List String) :=
  (omap (fun g =>
      (omap (key_of led) g.2).map
        (fun keyed => ((sort_by_vf keyed).drop 1).map Prod.fst)) dups).map
    (fun remLists => remLists.foldl (fun a b => a ++ b) [])

/-- remove_duplicates: load every artifact named in the ledger (msOf
models loadmat followed by tobytes, applied to the path; the String
result stands for the opaque byte content), group filenames by
byte-equal content in ledger order, and for every group with more than
one member delete all but the smallest-VfFree member from the ledger;
finally rewrite the json store.  A raise (missing artifact file, or a
missing or unparseable VfFree in a duplicate group) is none. -/
def remove_duplicates (msOf : String → Option String) (st : MSGen) : Option MSGen :=
  (omap (fun e => msOf (st.data_dir ++ "/" ++ e.1)) st.params_filename).bind
    (fun cs =>
      (removed_files st.params_filename
          (dup_groups ((st.params_filename.map Prod.fst).zip cs))).map
        (fun removed =>
          let led := st.params_filename.filter (fun e => !(removed.contains e.1))
          { st with params_filename := led,
                    json_store := some (encodeLedger led) }))

/-- The worked example ParameterSet of the spec. -/
def exampleParams : ParamSet :=
  [("ParRu", .int 8), ("ParRv", .float ⟨15, 1⟩), ("pix", .int 400),
   ("NumAgl", .int 1), ("VfAglm", .float ⟨1, 1⟩), ("VfFree", .float ⟨2, 2⟩),
   ("scale", .int 1), ("seed", .int 7)]



/-- A microstructure_gen object as freshly constructed with no existing
json file: empty job list, empty map, the default data_dir. -/
def fresh_state : MSGen :=
  { jobs := [], params_filename := [], json_store := none,
    data_dir := "./data" }

/-- The worked example ParameterSet with every field supplied as a CSV
style string, coercing to the same encoded values. -/
def strParams : ParamSet :=
  [("ParRu", .str "8"), ("ParRv", .str "1.50"), ("pix", .str "400"),
   ("NumAgl", .str "1"), ("VfAglm", .str "0.10"), ("VfFree", .str "0.02"),
   ("scale", .str "+1"), ("seed", .str "7")]

/-- A three-entry ledger in which a.mat and b.mat will carry byte-equal
artifacts and b.mat has the smaller VfFree. -/
def dup_state : MSGen :=
  { jobs := [], data_dir := "./data", json_store := none,
    params_filename :=
      [("a.mat", [("VfFree", PyVal.str "0.02")]),
       ("b.mat", [("VfFree", PyVal.str "0.01")]),
       ("c.mat", [("VfFree", PyVal.str "0.05")])] }

/-- Artifact contents for dup_state: a.mat and b.mat byte-identical,
c.mat different. -/
def artifact_bytes : String → Option String :=
  fun p => dlookup
    [("./data/a.mat", "X"), ("./data/b.mat", "X"), ("./data/c.mat", "Y")] p

/-- The state after admitting the worked example into a fresh object. -/
def one_job_state : MSGen :=
  match add_job fresh_state exampleParams with
  | some p => p.1
  | none => fresh_state

/-- A one-entry ledger whose companion VfAfl artifact will be absent. -/
def missing_artifact_state : MSGen :=
  { jobs := [], data_dir := "./data", json_store := none,
    params_filename := [("8_1_400_1_0.1_0.02_1_7.mat", exampleParams)] }

/-- A data directory holding no companion artifacts at all: every load
raises FileNotFoundError. -/
def absent_loader : String → Option (List Dec) := fun _ => none

/-- Whether a character list begins with the four characters of an rng
call statement. -/
def rngHead : List Char → Bool
  | c :: cs => c == 'r' &&
      (match cs with
       | c2 :: cs2 => c2 == 'n' &&
           (match cs2 with
            | c3 :: cs3 => c3 == 'g' &&
                (match cs3 with
                 | c4 :: _ => c4 == '('
                 | [] => false)
            | [] => false)
       | [] => false)
  | [] => false

/-- Whether a script line is an rng statement (begins with an rng
call). -/
def isRngLine (l : String) : Bool := rngHead l.data

section Lemmas

variable {α β : Type}

theorem omap_eq_some_forall {f : α → Option β} {l : List α} {bs : List β}
    (h : omap f l = some bs) : ∀ a ∈ l, ∃ b, f a = some b := by
  induction l generalizing bs with
  | nil => intro a ha; cases ha
  | cons x xs ih =>
    intro a ha
    simp only [omap] at h
    cases hx : f x with
    | none => rw [hx] at h; cases h
    | some b =>
      rw [hx] at h
      cases hxs : omap f xs with
      | none => rw [hxs] at h; cases h
      | some bs2 =>
        cases ha with
        | head => exact ⟨b, hx⟩
        | tail _ hmem => exact ih hxs a hmem

theorem omap_mem_exists {f : α → Option β} {l : List α} {bs : List β}
    (h : omap f l = some bs) : ∀ b ∈ bs, ∃ a ∈ l, f a = some b := by
  induction l generalizing bs with
  | nil =>
    intro b hb
    simp only [omap, Option.some.injEq] at h
    subst h; cases hb
  | cons x xs ih =>
    intro b hb
    simp only [omap] at h
    cases hx : f x with
    | none => rw [hx] at h; cases h
    | some b0 =>
      rw [hx] at h
      cases hxs : omap f xs with
      | none => rw [hxs] at h; cases h
      | some bs2 =>
        rw [hxs, Option.some.injEq] at h
        subst h
        cases hb with
        | head => exact ⟨x, List.mem_cons_self x xs, hx⟩
        | tail _ hmem =>
          obtain ⟨a, ha, hfa⟩ := ih hxs b hmem
          exact ⟨a, List.mem_cons_of_mem x ha, hfa⟩

theorem dlookup_dinsert_self {α : Type} (l : PyDict α) (k : String) (v : α) :
    dlookup (dinsert l k v) k = some v := by
  unfold dinsert
  by_cases hany : l.any (fun e => e.1 == k)
  · rw [if_pos hany]
    induction l with
    | nil => cases hany
    | cons e r ih =>
      simp only [List.any_cons, Bool.or_eq_true] at hany
      simp only [List.map_cons]
      by_cases he : e.1 == k
      · rw [if_pos he]
        simp [dlookup]
      · rw [if_neg he]
        simp only [dlookup, he, if_neg]
        rcases hany with h1 | h2
        · exact absurd h1 he
        · exact ih (by simpa using h2)
  · rw [if_neg hany]
    induction l with
    | nil => simp [dlookup]
    | cons e r ih =>
      simp only [List.any_cons, Bool.or_eq_true, not_or] at hany
      simp only [List.cons_append, dlookup, hany.1, if_neg]
      simp only [Bool.not_eq_true] at hany
      exact ih (by simp [hany.2])

theorem omap_decodeFloat_map (ds : List Dec) :
    omap decodeFloat (ds.map Json.jfloat) = some ds := by
  induction ds with
  | nil => rfl
  | cons d r ih => simp [omap, decodeFloat, ih]

theorem decodePyVal_encodePyVal (v : PyVal) :
    decodePyVal (encodePyVal v) = some v := by
  cases v with
  | int n => rfl
  | float d => rfl
  | str s => rfl
  | floatList ds => simp [encodePyVal, decodePyVal, omap_decodeFloat_map]

theorem decodeParamSet_encodeParamSet (ps : ParamSet) :
    decodeParamSet (encodeParamSet ps) = some ps := by
  induction ps with
  | nil => rfl
  | cons e r ih =>
    simp only [encodeParamSet, decodeParamSet, List.map_cons, omap,
      decodePyVal_encodePyVal]
    simp only [encodeParamSet, decodeParamSet] at ih
    rw [ih]
    rfl

theorem decodeLedger_encodeLedger (l : Ledger) :
    decodeLedger (encodeLedger l) = some l := by
  induction l with
  | nil => rfl
  | cons e r ih =>
    simp only [encodeLedger, decodeLedger, List.map_cons, omap,
      decodeParamSet_encodeParamSet]
    simp only [encodeLedger, decodeLedger] at ih
    rw [ih]
    rfl

theorem Dec.lt_asymm_false (a b : Dec) (h : Dec.lt a b = true) :
    Dec.lt b a = false := by
  simp only [Dec.lt, decide_eq_true_eq] at h
  simp only [Dec.lt, decide_eq_false_iff_not]
  exact Int.lt_asymm h

theorem Dec.repr_eq_of_norm_eq (a b : Dec) (h : Dec.norm a = Dec.norm b) :
    Dec.repr a = Dec.repr b := by
  unfold Dec.repr
  rw [h]

theorem rngHead_cons_ne (c : Char) (cs : List Char) (h : (c == 'r') = false) :
    rngHead (c :: cs) = false := by
  simp [rngHead, h]

theorem isRngLine_batch_line (x : String) :
    isRngLine ("batch = " ++ x ++ ";") = false := by
  cases x with
  | mk xd => exact rngHead_cons_ne 'b' _ rfl

theorem isRngLine_data_dir_line (x : String) :
    isRngLine ("data_dir = " ++ dq ++ x ++ "/" ++ dq ++ ";") = false := by
  cases x with
  | mk xd => exact rngHead_cons_ne 'd' _ rfl

theorem isRngLine_filename_line (x : String) :
    isRngLine ("filename = [" ++ dq ++ x ++ dq ++ "];") = false := by
  cases x with
  | mk xd => exact rngHead_cons_ne 'f' _ rfl

theorem isRngLine_param_line_shape (c : Char) (cs : List Char) (x : String)
    (h : (c == 'r') = false) :
    isRngLine (String.mk (c :: cs) ++ " = [" ++ x ++ "];") = false := by
  cases x with
  | mk xd => exact rngHead_cons_ne c _ h

end Lemmas

/-- C2: admitting the worked example ParameterSet derives the filename
8_1_400_1_0.1_0.02_1_7.mat (six fields integer truncated, VfAglm and
VfFree kept as floats, underscore joined, .mat extension) and, from any
prior state, inserts a ledger entry under exactly that key mapping to the
given ParameterSet (and appends the corresponding job). -/
theorem c2_example_admission :
    generate_mat_name exampleParams = some "8_1_400_1_0.1_0.02_1_7.mat" ∧
    ∀ st : MSGen, ∃ st1 : MSGen,
      add_job st exampleParams = some (st1, []) ∧
      dlookup st1.params_filename "8_1_400_1_0.1_0.02_1_7.mat" =
        some exampleParams ∧
      st1.jobs = st.jobs ++
        [dinsert exampleParams "filename"
          (PyVal.str "8_1_400_1_0.1_0.02_1_7.mat")] := by
  refine ⟨rfl, fun st => ⟨_, rfl, ?_, rfl⟩⟩
  exact dlookup_dinsert_self _ _ _

/-- C3: admitting a candidate mapping that misses at least one required
field reports a message naming a missing field and returns with the whole
state (job list, in-memory map, persisted json) unchanged. -/
theorem c3_missing_field_leaves_state_unchanged (st : MSGen) (ps : ParamSet)
    (h : ∃ p ∈ required_params, dlookup ps p = none) :
    ∃ m ∈ required_params, dlookup ps m = none ∧
      add_job st ps = some (st, [specify_msg m]) := by
  have hsome : (first_missing ps).isSome := by
    rw [first_missing, List.find?_isSome]
    obtain ⟨p, hp, hnone⟩ := h
    exact ⟨p, hp, by simp [hnone]⟩
  obtain ⟨m, hm⟩ := Option.isSome_iff_exists.mp hsome
  have hmem : m ∈ required_params := by
    have := hm
    rw [first_missing] at this
    exact List.mem_of_find?_eq_some this
  have hnone : dlookup ps m = none := by
    have := hm
    rw [first_missing] at this
    have hpred := List.find?_some this
    simpa using hpred
  refine ⟨m, hmem, hnone, ?_⟩
  simp only [add_job, hm]

/-- Witness for C3 at the empty candidate mapping and a fresh state. -/
theorem c3_witness :
    (∃ p ∈ required_params, dlookup ([] : ParamSet) p = none) ∧
    ∃ m ∈ required_params, dlookup ([] : ParamSet) m = none ∧
      add_job fresh_state [] = some (fresh_state, [specify_msg m]) :=
  ⟨⟨"ParRu", by simp [required_params], rfl⟩,
   c3_missing_field_leaves_state_unchanged fresh_state []
     ⟨"ParRu", by simp [required_params], rfl⟩⟩

/-- C4: loading a CSV descriptor whose header row, viewed as an unordered
set, differs from the required eight-field set prints a diagnostic and
returns with the state (job list and ledger) unchanged: no row is
admitted. -/
theorem c4_header_mismatch_aborts (st : MSGen) (c : Csv)
    (h : setEqB c.header required_params = false) :
    load_job_params st (some c) = some (st, [header_msg]) := by
  simp [load_job_params, h]

/-- Witness for C4 at a two-column header. -/
theorem c4_witness :
    setEqB ["ParRu", "pix"] required_params = false ∧
    load_job_params fresh_state (some ⟨["ParRu", "pix"], [["1", "2"]]⟩) =
      some (fresh_state, [header_msg]) :=
  ⟨rfl, c4_header_mismatch_aborts fresh_state ⟨["ParRu", "pix"], [["1", "2"]]⟩ rfl⟩

/-- C5: two successful admissions deriving the same filename leave the
second ParameterSet as the record under that filename, with no warning
message, and each successful admission stores the full serialization of
the whole in-memory mapping into the json file. -/
theorem c5_overwrite_and_full_rewrite (st : MSGen) (ps1 ps2 : ParamSet)
    (n : String)
    (hv1 : first_missing ps1 = none) (hn1 : generate_mat_name ps1 = some n)
    (hv2 : first_missing ps2 = none) (hn2 : generate_mat_name ps2 = some n) :
    ∃ st1 st2 : MSGen,
      add_job st ps1 = some (st1, []) ∧
      add_job st1 ps2 = some (st2, []) ∧
      dlookup st2.params_filename n = some ps2 ∧
      st1.json_store = some (encodeLedger st1.params_filename) ∧
      st2.json_store = some (encodeLedger st2.params_filename) := by
  refine ⟨{ jobs := st.jobs ++ [dinsert ps1 "filename" (PyVal.str n)],
            params_filename := dinsert st.params_filename n ps1,
            json_store :=
              some (encodeLedger (dinsert st.params_filename n ps1)),
            data_dir := st.data_dir },
          { jobs := (st.jobs ++ [dinsert ps1 "filename" (PyVal.str n)]) ++
              [dinsert ps2 "filename" (PyVal.str n)],
            params_filename := dinsert (dinsert st.params_filename n ps1) n ps2,
            json_store :=
              some (encodeLedger
                (dinsert (dinsert st.params_filename n ps1) n ps2)),
            data_dir := st.data_dir }, ?_, ?_, ?_, rfl, rfl⟩
  · simp only [add_job, hv1, hn1, update_params_filename]
  · simp only [add_job, hv2, hn2, update_params_filename]
  · exact dlookup_dinsert_self _ _ _

/-- Witness for C5: the worked example admitted twice, once with numeric
and once with string-typed fields, both deriving the same filename. -/
theorem c5_witness :
    first_missing exampleParams = none ∧
    generate_mat_name exampleParams = some "8_1_400_1_0.1_0.02_1_7.mat" ∧
    first_missing strParams = none ∧
    generate_mat_name strParams = some "8_1_400_1_0.1_0.02_1_7.mat" ∧
    ∃ st1 st2 : MSGen,
      add_job fresh_state exampleParams = some (st1, []) ∧
      add_job st1 strParams = some (st2, []) ∧
      dlookup st2.params_filename "8_1_400_1_0.1_0.02_1_7.mat" =
        some strParams ∧
      st1.json_store = some (encodeLedger st1.params_filename) ∧
      st2.json_store = some (encodeLedger st2.params_filename) :=
  ⟨rfl, rfl, rfl, rfl,
   c5_overwrite_and_full_rewrite fresh_state exampleParams strParams
     "8_1_400_1_0.1_0.02_1_7.mat" rfl rfl rfl rfl⟩

/-- C6: serializing any ledger mapping to the json file (as
update_params_filename does) and loading it back at construction time (as
the constructor does) yields the identical mapping. -/
theorem c6_persist_reload_round_trip (l : Ledger) :
    init_ledger (some (encodeLedger l)) = some l := by
  simp [init_ledger, decodeLedger_encodeLedger]

/-- C7 counterexample: a ledger entry whose companion VfAfl artifact is
absent.  The claim asserts the enrichment pass does not raise and
completes; on this input update_VfAfl propagates the load failure (none)
instead of completing, so the claim is false. -/
theorem c7_counterexample :
    ("8_1_400_1_0.1_0.02_1_7.mat", exampleParams) ∈
      missing_artifact_state.params_filename ∧
    absent_loader (missing_artifact_state.data_dir ++ "/VfAfl_" ++
      "8_1_400_1_0.1_0.02_1_7.mat") = none ∧
    update_VfAfl absent_loader missing_artifact_state = none :=
  ⟨by simp [missing_artifact_state], rfl, rfl⟩

/-- C7 amended: when any ledger entry has a missing companion VfAfl
artifact, update_VfAfl raises (the load error propagates), aborting the
pass without persisting anything, rather than skipping silently. -/
theorem c7_missing_companion_raises (st : MSGen)
    (loadOf : String → Option (List Dec))
    (h : ∃ e ∈ st.params_filename,
      loadOf (st.data_dir ++ "/VfAfl_" ++ e.1) = none) :
    update_VfAfl loadOf st = none := by
  obtain ⟨e, he, hl⟩ := h
  unfold update_VfAfl
  cases hm : omap (fun e =>
      (loadOf (st.data_dir ++ "/VfAfl_" ++ e.1)).map
        (fun v => (e.1, dinsert e.2 "VfAfl" (PyVal.floatList v))))
      st.params_filename with
  | none => rfl
  | some led =>
    obtain ⟨b, hb⟩ := omap_eq_some_forall hm e he
    rw [hl] at hb
    cases hb

/-- Witness for the amended C7 at a concrete one-entry ledger with no
companion artifacts. -/
theorem c7_witness :
    (∃ e ∈ missing_artifact_state.params_filename,
      absent_loader (missing_artifact_state.data_dir ++ "/VfAfl_" ++ e.1) =
        none) ∧
    update_VfAfl absent_loader missing_artifact_state = none :=
  ⟨⟨("8_1_400_1_0.1_0.02_1_7.mat", exampleParams),
    by simp [missing_artifact_state], rfl⟩,
   c7_missing_companion_raises missing_artifact_state absent_loader
     ⟨("8_1_400_1_0.1_0.02_1_7.mat", exampleParams),
      by simp [missing_artifact_state], rfl⟩⟩

/-- C8: the Namer is a function of the encoded field values alone: any
two ParameterSets whose six integer-truncated fields agree and whose two
float fields agree as float values (canonical forms equal) receive
identical filenames, whether the inputs are strings or numbers. -/
theorem c8_namer_encoding_determinism (p q : ParamSet)
    (ru rv px na sc sd : Int) (vm vm2 vf vf2 : Dec)
    (hp1 : encInt p "ParRu" = some ru) (hq1 : encInt q "ParRu" = some ru)
    (hp2 : encInt p "ParRv" = some rv) (hq2 : encInt q "ParRv" = some rv)
    (hp3 : encInt p "pix" = some px) (hq3 : encInt q "pix" = some px)
    (hp4 : encInt p "NumAgl" = some na) (hq4 : encInt q "NumAgl" = some na)
    (hp5 : encFloat p "VfAglm" = some vm) (hq5 : encFloat q "VfAglm" = some vm2)
    (hn5 : Dec.norm vm = Dec.norm vm2)
    (hp6 : encFloat p "VfFree" = some vf) (hq6 : encFloat q "VfFree" = some vf2)
    (hn6 : Dec.norm vf = Dec.norm vf2)
    (hp7 : encInt p "scale" = some sc) (hq7 : encInt q "scale" = some sc)
    (hp8 : encInt p "seed" = some sd) (hq8 : encInt q "seed" = some sd) :
    generate_mat_name p = generate_mat_name q ∧
    (generate_mat_name p).isSome := by
  unfold generate_mat_name
  rw [hp1, hp2, hp3, hp4, hp5, hp6, hp7, hp8,
      hq1, hq2, hq3, hq4, hq5, hq6, hq7, hq8]
  dsimp only
  rw [Dec.repr_eq_of_norm_eq vm vm2 hn5, Dec.repr_eq_of_norm_eq vf vf2 hn6]
  exact ⟨rfl, rfl⟩

/-- Witness for C8: the worked example with numeric fields against the
same values supplied as strings. -/
theorem c8_witness :
    generate_mat_name exampleParams = generate_mat_name strParams ∧
    (generate_mat_name exampleParams).isSome :=
  c8_namer_encoding_determinism exampleParams strParams
    8 1 400 1 1 7 ⟨1, 1⟩ ⟨10, 2⟩ ⟨2, 2⟩ ⟨2, 2⟩
    rfl rfl rfl rfl rfl rfl rfl rfl rfl rfl rfl rfl rfl rfl rfl rfl rfl rfl

/-- C10: the Duplicate Resolver only deletes: whenever remove_duplicates
completes, the resulting mapping is a sublist of the original one, so
every surviving filename was present before with its original, unmodified
ParameterSet, and nothing is added. -/
theorem c10_remove_duplicates_only_deletes (msOf : String → Option String)
    (st st2 : MSGen) (h : remove_duplicates msOf st = some st2) :
    List.Sublist st2.params_filename st.params_filename := by
  unfold remove_duplicates at h
  cases h1 : omap (fun e => msOf (st.data_dir ++ "/" ++ e.1))
      st.params_filename with
  | none => rw [h1] at h; cases h
  | some cs =>
    rw [h1, Option.some_bind] at h
    cases h2 : removed_files st.params_filename
        (dup_groups ((st.params_filename.map Prod.fst).zip cs)) with
    | none => rw [h2] at h; cases h
    | some removed =>
      rw [h2, Option.map_some'] at h
      cases h
      exact List.filter_sublist _

/-- Witness for C10 at the concrete three-entry duplicate ledger. -/
theorem c10_witness :
    ∃ st2 : MSGen,
      remove_duplicates artifact_bytes dup_state = some st2 ∧
      List.Sublist st2.params_filename dup_state.params_filename := by
  refine ⟨_, rfl, ?_⟩
  exact c10_remove_duplicates_only_deletes artifact_bytes dup_state _ rfl

/-- C9: whenever write_m_file emits a script, its lines decompose as a
prefix containing no rng statement, then the one initialization block
(rng default, then rng(seed(1)), seeding from the first job only),
then the fixed loop block, which opens with the for line and contains no
rng statement: the generator is initialized exactly once, before the
loop, so no later job seed can influence the drawn split points. -/
theorem c9_single_seed_initialization (st : MSGen) (lines : List String)
    (h : write_m_file st = some lines) :
    ∃ pre : List String,
      lines = pre ++ ["rng(" ++ aq ++ "default" ++ aq ++ ");",
                      "rng(seed(1));"] ++ loop_lines ∧
      (∀ l ∈ pre, isRngLine l = false) ∧
      (∀ l ∈ loop_lines, isRngLine l = false) ∧
      loop_lines.head? = some "for i = 1:batch" := by
  unfold write_m_file at h
  by_cases hj : st.jobs.isEmpty
  · rw [if_pos hj] at h; cases h
  · rw [if_neg hj] at h
    cases hf : omap job_filename st.jobs with
    | none => rw [hf] at h; cases h
    | some fns =>
      rw [hf, Option.some_bind] at h
      cases hp : omap (param_line st) required_params with
      | none => rw [hp] at h; cases h
      | some plines =>
        rw [hp, Option.map_some'] at h
        injection h with h
        refine ⟨["batch = " ++ toString st.jobs.length ++ ";",
                 "data_dir = " ++ dq ++ st.data_dir ++ "/" ++ dq ++ ";",
                 "filename = [" ++ dq ++
                   String.intercalate (dq ++ " " ++ dq) fns ++ dq ++ "];"]
                ++ plines, ?_, ?_, by decide, rfl⟩
        · rw [← h]
          simp [rng_default_line, rng_seed_line, List.append_assoc]
        · intro l hl
          rcases List.mem_append.mp hl with h3 | h3
          · simp only [List.mem_cons, List.not_mem_nil, or_false] at h3
            rcases h3 with rfl | rfl | rfl
            · exact isRngLine_batch_line _
            · exact isRngLine_data_dir_line _
            · exact isRngLine_filename_line _
          · obtain ⟨par, hparmem, hline⟩ := omap_mem_exists hp l h3
            rw [param_line] at hline
            obtain ⟨vs, hvs, hl2⟩ := Option.map_eq_some'.mp hline
            subst hl2
            simp only [required_params, List.mem_cons, List.not_mem_nil,
              or_false] at hparmem
            rcases hparmem with rfl | rfl | rfl | rfl | rfl | rfl | rfl | rfl
            · exact isRngLine_param_line_shape 'P' _ _ rfl
            · exact isRngLine_param_line_shape 'P' _ _ rfl
            · exact isRngLine_param_line_shape 'p' _ _ rfl
            · exact isRngLine_param_line_shape 'N' _ _ rfl
            · exact isRngLine_param_line_shape 'V' _ _ rfl
            · exact isRngLine_param_line_shape 'V' _ _ rfl
            · exact isRngLine_param_line_shape 's' _ _ rfl
            · exact isRngLine_param_line_shape 's' _ _ rfl

/-- Witness for C9 at the one-job state obtained by admitting the worked
example. -/
theorem c9_witness :
    ∃ pre : List String,
      (["batch = 1;",
        "data_dir = " ++ dq ++ "./data/" ++ dq ++ ";",
        "filename = [" ++ dq ++ "8_1_400_1_0.1_0.02_1_7.mat" ++ dq ++ "];",
        "ParRu = [8];", "ParRv = [1.5];", "pix = [400];", "NumAgl = [1];",
        "VfAglm = [0.1];", "VfFree = [0.02];", "scale = [1];", "seed = [7];",
        rng_default_line, rng_seed_line] ++ loop_lines) =
        pre ++ ["rng(" ++ aq ++ "default" ++ aq ++ ");",
                "rng(seed(1));"] ++ loop_lines ∧
      (∀ l ∈ pre, isRngLine l = false) ∧
      (∀ l ∈ loop_lines, isRngLine l = false) ∧
      loop_lines.head? = some "for i = 1:batch" :=
  c9_single_seed_initialization one_job_state _ rfl

/-- C1: on a three-entry ledger where the first two filenames carry
byte-identical artifact content, the third different content, and the two
duplicates have distinct VfFree values, remove_duplicates deletes exactly
the larger-VfFree duplicate, retains the smaller-VfFree duplicate and the
non-duplicate entry, and persists the pruned mapping to the json
store. -/
theorem c1_remove_duplicates_keeps_smallest (st : MSGen)
    (fa fb fc : String) (pa pb pc : ParamSet) (bs bs2 : String)
    (da db : Dec) (msOf : String → Option String)
    (hled : st.params_filename = [(fa, pa), (fb, pb), (fc, pc)])
    (hab : fa ≠ fb) (hac : fa ≠ fc) (hbc : fb ≠ fc)
    (hma : msOf (st.data_dir ++ "/" ++ fa) = some bs)
    (hmb : msOf (st.data_dir ++ "/" ++ fb) = some bs)
    (hmc : msOf (st.data_dir ++ "/" ++ fc) = some bs2)
    (hne : bs2 ≠ bs)
    (hka : vfFreeOf pa = some da) (hkb : vfFreeOf pb = some db)
    (hlt : Dec.lt da db = true ∨ Dec.lt db da = true) :
    ∃ st2 : MSGen,
      remove_duplicates msOf st = some st2 ∧
      st2.params_filename =
        (if Dec.lt da db then [(fa, pa), (fc, pc)]
         else [(fb, pb), (fc, pc)]) ∧
      st2.json_store = some (encodeLedger st2.params_filename) := by
  have nab : (fa == fb) = false := beq_eq_false_iff_ne.mpr hab
  have nba : (fb == fa) = false := beq_eq_false_iff_ne.mpr (Ne.symm hab)
  have nac : (fa == fc) = false := beq_eq_false_iff_ne.mpr hac
  have nca : (fc == fa) = false := beq_eq_false_iff_ne.mpr (Ne.symm hac)
  have nbc : (fb == fc) = false := beq_eq_false_iff_ne.mpr hbc
  have ncb : (fc == fb) = false := beq_eq_false_iff_ne.mpr (Ne.symm hbc)
  have hbeq1 : (bs == bs2) = false := beq_eq_false_iff_ne.mpr (Ne.symm hne)
  have hcs : omap (fun e => msOf (st.data_dir ++ "/" ++ e.1))
      st.params_filename = some [bs, bs, bs2] := by
    rw [hled]
    simp [omap, hma, hmb, hmc]
  have hgroups : dup_groups ((st.params_filename.map Prod.fst).zip
      [bs, bs, bs2]) = [(bs, [fa, fb])] := by
    rw [hled]
    simp [dup_groups, add_to_groups, hbeq1]
  have hkeya : key_of st.params_filename fa = some (fa, da) := by
    rw [hled]
    simp [key_of, dlookup, hka]
  have hkeyb : key_of st.params_filename fb = some (fb, db) := by
    rw [hled]
    simp [key_of, dlookup, hkb, nab]
  have hrem : removed_files st.params_filename [(bs, [fa, fb])] =
      some (if Dec.lt da db then [fb] else [fa]) := by
    rcases hlt with hl | hl
    · have h2 : Dec.lt db da = false := Dec.lt_asymm_false _ _ hl
      simp [removed_files, omap, hkeya, hkeyb, sort_by_vf, vf_insert, hl, h2]
    · have h2 : Dec.lt da db = false := Dec.lt_asymm_false _ _ hl
      simp [removed_files, omap, hkeya, hkeyb, sort_by_vf, vf_insert, hl, h2]
  have hmain : remove_duplicates msOf st = some
      { st with
        params_filename := st.params_filename.filter
          (fun e => !((if Dec.lt da db then [fb] else [fa]).contains e.1)),
        json_store := some (encodeLedger (st.params_filename.filter
          (fun e => !((if Dec.lt da db then [fb] else [fa]).contains e.1)))) } := by
    rw [remove_duplicates, hcs, Option.some_bind, hgroups, hrem,
      Option.map_some']
  refine ⟨_, hmain, ?_, rfl⟩
  rw [hled]
  cases hcase : Dec.lt da db with
  | true =>
    simp [hcase, List.contains, List.filter, hab, hac, hbc,
      Ne.symm hab, Ne.symm hac, Ne.symm hbc]
  | false =>
    simp [hcase, List.contains, List.filter, hab, hac, hbc,
      Ne.symm hab, Ne.symm hac, Ne.symm hbc]

/-- Witness for C1 at the concrete three-entry ledger: a.mat and b.mat
byte-identical, b.mat the smaller VfFree, so a.mat is removed. -/
theorem c1_witness :
    ∃ st2 : MSGen,
      remove_duplicates artifact_bytes dup_state = some st2 ∧
      st2.params_filename =
        (if Dec.lt ⟨2, 2⟩ ⟨1, 2⟩ then
          [("a.mat", [("VfFree", PyVal.str "0.02")]),
           ("c.mat", [("VfFree", PyVal.str "0.05")])]
         else
          [("b.mat", [("VfFree", PyVal.str "0.01")]),
           ("c.mat", [("VfFree", PyVal.str "0.05")])]) ∧
      st2.json_store = some (encodeLedger st2.params_filename) :=
  c1_remove_duplicates_keeps_smallest dup_state "a.mat" "b.mat" "c.mat"
    [("VfFree", PyVal.str "0.02")] [("VfFree", PyVal.str "0.01")]
    [("VfFree", PyVal.str "0.05")] "X" "Y" ⟨2, 2⟩ ⟨1, 2⟩ artifact_bytes
    rfl (by decide) (by decide) (by decide) rfl rfl rfl (by decide)
    rfl rfl (Or.inr (by decide))

end MicrostructureGen
